import Mathlib

/- Verification development for the OthorAI backend (FastAPI + pandas/sklearn
data and ML service).  The Python functions under scrutiny are shallowly
embedded below: pure fragments become Lean functions over `List`, `String`,
`ℚ` (exact rationals standing for the finite float values the code computes)
and `ℕ`; calls into pandas/numpy whose numeric output the claims treat as
opaque (parse success flags, correlation matrices, batch standard deviation)
become explicit parameters of the embedded functions and are documented at
each definition. -/

namespace OthorAI

/-! ## Embedding of `EnhancedDataPreprocessor._determine_missing_strategy_numeric`
(`backend/app/core/enhanced_preprocessor.py`).

`analysis['missing_data']` maps every column of the feature frame `X` to its
missing percentage `(X[col].isnull().sum() / len(X)) * 100`; it is embedded as
an association list.  `analysis['dataset_size']` is `len(X)` (row count); the
`data` argument of the Python method is the numeric sub-frame, of which only
the column-name list matters here. -/

/-- `sum(analysis['missing_data'][col] for col in data.columns if col in analysis['missing_data'])`. -/
def totalMissingNumeric (cols : List String) (missingMap : List (String × ℚ)) : ℚ :=
  (cols.filterMap (fun c => missingMap.lookup c)).sum

/-- `avg_missing = total_missing / len(data.columns) if len(data.columns) > 0 else 0`. -/
def avgMissingNumeric (cols : List String) (missingMap : List (String × ℚ)) : ℚ :=
  if 0 < cols.length then totalMissingNumeric cols missingMap / (cols.length : ℚ) else 0

/-- Embeds `EnhancedDataPreprocessor._determine_missing_strategy_numeric`:
returns the configured strategy unless it is `'auto'`, in which case the
strategy is picked from the average missing percentage over the numeric
columns and the dataset row count. -/
def determineMissingStrategyNumeric (config : String) (cols : List String)
    (missingMap : List (String × ℚ)) (datasetSize : ℕ) : String :=
  if config ≠ "auto" then config
  else if 20 < avgMissingNumeric cols missingMap then "median"
  else if 1000 < datasetSize ∧ 5 < avgMissingNumeric cols missingMap then "knn"
  else "mean"

/-- C9: with `'auto'` configuration, the numeric imputation strategy is chosen
exactly by missing-data severity: `'median'` iff the average missing
percentage over the numeric columns exceeds 20; otherwise `'knn'` iff the
dataset has more than 1000 rows and the average missing percentage exceeds 5;
otherwise `'mean'`. -/
theorem c9_auto_imputation_strategy (cols : List String)
    (missingMap : List (String × ℚ)) (datasetSize : ℕ) :
    (determineMissingStrategyNumeric "auto" cols missingMap datasetSize = "median" ↔
      20 < avgMissingNumeric cols missingMap) ∧
    (determineMissingStrategyNumeric "auto" cols missingMap datasetSize = "knn" ↔
      (avgMissingNumeric cols missingMap ≤ 20 ∧ 1000 < datasetSize ∧
        5 < avgMissingNumeric cols missingMap)) ∧
    (determineMissingStrategyNumeric "auto" cols missingMap datasetSize = "mean" ↔
      (avgMissingNumeric cols missingMap ≤ 20 ∧
        (datasetSize ≤ 1000 ∨ avgMissingNumeric cols missingMap ≤ 5))) := by
  have hres : determineMissingStrategyNumeric "auto" cols missingMap datasetSize =
      (if 20 < avgMissingNumeric cols missingMap then "median"
       else if 1000 < datasetSize ∧ 5 < avgMissingNumeric cols missingMap then "knn"
       else "mean") := by
    unfold determineMissingStrategyNumeric
    rw [if_neg (not_not_intro rfl)]
  rw [hres]
  by_cases h20 : 20 < avgMissingNumeric cols missingMap
  · rw [if_pos h20]
    refine ⟨iff_of_true rfl h20, iff_of_false (by decide) ?_, iff_of_false (by decide) ?_⟩
    · rintro ⟨hle, -⟩
      exact absurd h20 (not_lt.mpr hle)
    · rintro ⟨hle, -⟩
      exact absurd h20 (not_lt.mpr hle)
  · rw [if_neg h20]
    have hle : avgMissingNumeric cols missingMap ≤ 20 := not_lt.mp h20
    by_cases hk : 1000 < datasetSize ∧ 5 < avgMissingNumeric cols missingMap
    · rw [if_pos hk]
      refine ⟨iff_of_false (by decide) (fun hx => h20 hx),
        iff_of_true rfl ⟨hle, hk⟩, iff_of_false (by decide) ?_⟩
      rintro ⟨-, hor⟩
      rcases hor with hd | h5
      · exact absurd hk.1 (not_lt.mpr hd)
      · exact absurd hk.2 (not_lt.mpr h5)
    · rw [if_neg hk]
      refine ⟨iff_of_false (by decide) (fun hx => h20 hx),
        iff_of_false (by decide) (fun hx => hk ⟨hx.2.1, hx.2.2⟩),
        iff_of_true rfl ⟨hle, ?_⟩⟩
      by_cases hd : 1000 < datasetSize
      · exact Or.inr (le_of_not_lt (fun h5 => hk ⟨hd, h5⟩))
      · exact Or.inl (not_lt.mp hd)

/-! ## Embedding of problem-type auto-detection.

`MLProcessor.detect_problem_type` (`backend/app/core/ml_processor.py`) and
`DataProcessor.infer_problem_type` (`backend/app/core/data_processor.py`).
A target column is embedded as its pandas numeric-dtype flag plus its cell
list; `none` cells are the nulls removed by `dropna()`.  Cell values are
represented as rationals used only for equality counting (`nunique`), so any
injective encoding of the actual values is faithful. -/

structure TargetCol where
  dtypeIsNumeric : Bool
  vals : List (Option ℚ)

/-- `target_series.dropna()`. -/
def cleanVals (t : TargetCol) : List ℚ := t.vals.filterMap id

/-- `series.nunique()`: the number of distinct non-null values. -/
def nuniq (xs : List ℚ) : ℕ := xs.dedup.length

/-- Embeds `MLProcessor.detect_problem_type`.  On an all-null numeric target
the Python code raises `ZeroDivisionError` computing `unique_ratio`, which the
enclosing `except` turns into the default `"classification"`; that exception
path is the `clean.length = 0` branch below. -/
def detectProblemType (t : TargetCol) : String :=
  if t.dtypeIsNumeric then
    if (cleanVals t).length = 0 then "classification"
    else if nuniq (cleanVals t) ≤ 10 ∨
        (nuniq (cleanVals t) : ℚ) / ((cleanVals t).length : ℚ) < 1 / 20 then
      "classification"
    else "regression"
  else "classification"

/-- Embeds `DataProcessor.infer_problem_type`: identical decision rule but an
explicit `"unknown"` on an empty (all-null) target. -/
def inferProblemType (t : TargetCol) : String :=
  if (cleanVals t).length = 0 then "unknown"
  else if t.dtypeIsNumeric then
    if nuniq (cleanVals t) ≤ 10 ∨
        (nuniq (cleanVals t) : ℚ) / ((cleanVals t).length : ℚ) < 1 / 20 then
      "classification"
    else "regression"
  else "classification"

/-- C3: for every target column with at least one non-null value, both
problem-type auto-detectors agree, and they return `"classification"` exactly
when the target is non-numeric, or has at most 10 distinct values, or has a
distinct-value ratio below 0.05; in every other case they return
`"regression"`. -/
theorem c3_problem_type_detection (t : TargetCol) (h : cleanVals t ≠ []) :
    detectProblemType t = inferProblemType t ∧
    (detectProblemType t = "classification" ↔
      (t.dtypeIsNumeric = false ∨ nuniq (cleanVals t) ≤ 10 ∨
        (nuniq (cleanVals t) : ℚ) / ((cleanVals t).length : ℚ) < 1 / 20)) ∧
    (detectProblemType t = "regression" ↔
      (t.dtypeIsNumeric = true ∧ 10 < nuniq (cleanVals t) ∧
        1 / 20 ≤ (nuniq (cleanVals t) : ℚ) / ((cleanVals t).length : ℚ))) := by
  have hlen : (cleanVals t).length ≠ 0 := by
    simpa [List.length_eq_zero] using h
  have hCR : ("classification" : String) ≠ "regression" := by decide
  by_cases hb : t.dtypeIsNumeric = true
  case neg =>
    have hbf : t.dtypeIsNumeric = false := by
      revert hb
      rcases t.dtypeIsNumeric with _ | _ <;> simp
    have hdet : detectProblemType t = "classification" := by
      unfold detectProblemType
      rw [hbf]
      simp
    have hinf : inferProblemType t = "classification" := by
      unfold inferProblemType
      rw [if_neg hlen, hbf]
      simp
    refine ⟨hdet.trans hinf.symm, iff_of_true hdet (Or.inl hbf), ?_⟩
    rw [hdet]
    exact iff_of_false hCR (fun hx => hb hx.1)
  case pos =>
    by_cases hcond : nuniq (cleanVals t) ≤ 10 ∨
      (nuniq (cleanVals t) : ℚ) / ((cleanVals t).length : ℚ) < 1 / 20
    · have hdet : detectProblemType t = "classification" := by
        unfold detectProblemType
        rw [hb]
        rw [if_pos rfl, if_neg hlen, if_pos hcond]
      have hinf : inferProblemType t = "classification" := by
        unfold inferProblemType
        rw [if_neg hlen, hb]
        rw [if_pos rfl, if_pos hcond]
      refine ⟨hdet.trans hinf.symm, iff_of_true hdet (Or.inr hcond), ?_⟩
      rw [hdet]
      refine iff_of_false hCR ?_
      rintro ⟨-, h10, hr⟩
      rcases hcond with hc | hc
      · omega
      · exact absurd hc (not_lt.mpr hr)
    · have h10 : 10 < nuniq (cleanVals t) :=
        lt_of_not_ge fun hx => hcond (Or.inl hx)
      have hge : 1 / 20 ≤ (nuniq (cleanVals t) : ℚ) / ((cleanVals t).length : ℚ) :=
        le_of_not_lt fun hx => hcond (Or.inr hx)
      have hdet : detectProblemType t = "regression" := by
        unfold detectProblemType
        rw [hb]
        rw [if_pos rfl, if_neg hlen, if_neg hcond]
      have hinf : inferProblemType t = "regression" := by
        unfold inferProblemType
        rw [if_neg hlen, hb]
        rw [if_pos rfl, if_neg hcond]
      refine ⟨hdet.trans hinf.symm, ?_, iff_of_true hdet ⟨hb, h10, hge⟩⟩
      rw [hdet]
      refine iff_of_false (fun hx => hCR hx.symm) ?_
      rintro (hfalse | hc)
      · rw [hb] at hfalse
        exact absurd hfalse (by simp)
      · exact hcond hc

/-- Witness for C3 at a concrete non-numeric target with two non-null cells
(so the detector reports classification). -/
theorem c3_problem_type_detection_witness :
    cleanVals ⟨false, [some 1, none, some 0]⟩ ≠ [] ∧
    detectProblemType ⟨false, [some 1, none, some 0]⟩ = "classification" := by
  have h : cleanVals ⟨false, [some 1, none, some 0]⟩ ≠ [] := by
    simp [cleanVals]
  refine ⟨h, ?_⟩
  have := (c3_problem_type_detection ⟨false, [some 1, none, some 0]⟩ h).2.1
  rw [this]
  exact Or.inl rfl

/-! ## Embedding of `IntelligentDataAnalyzer._recommend_target_columns`
(`backend/app/core/intelligent_analyzer.py`).

The method calls `_assess_target_suitability` on each column and keeps the
columns it marks suitable; the per-column assessment output is embedded as an
abstract candidate record (name, suitability score, suitability flag), so the
theorems below hold for every possible assessment outcome.  `list.sort(key=...,
reverse=True)` is a stable descending sort by score, embedded as insertion
sort with the reflexive total relation "score is greater or equal". -/

structure TargetCandidate where
  name : String
  suitabilityScore : ℚ
  isSuitable : Bool

/-- The descending-score ordering used by `recommendations.sort(key=lambda x:
x['suitability_score'], reverse=True)`. -/
def scoreGE (a b : TargetCandidate) : Prop := b.suitabilityScore ≤ a.suitabilityScore

instance : DecidableRel scoreGE := fun a b => inferInstanceAs (Decidable (_ ≤ _))

instance : IsTotal TargetCandidate scoreGE :=
  ⟨fun a b => (le_total b.suitabilityScore a.suitabilityScore).imp id id⟩

instance : IsTrans TargetCandidate scoreGE :=
  ⟨fun _ _ _ h1 h2 => le_trans h2 h1⟩

/-- The dict returned by `_recommend_target_columns`. -/
structure TargetRecommendationResult where
  recommendedTargets : List TargetCandidate
  totalCandidates : ℕ
  hasClearTarget : Bool
  bestRecommendation : Option TargetCandidate

/-- Embeds `_recommend_target_columns`: filter the suitable candidates, sort
them by suitability score in descending order, truncate the returned list to
the top 5, and report the count of all suitable candidates. -/
def recommendTargetColumns (cands : List TargetCandidate) : TargetRecommendationResult :=
  { recommendedTargets :=
      (List.insertionSort scoreGE (cands.filter (fun c => c.isSuitable))).take 5
    totalCandidates :=
      (List.insertionSort scoreGE (cands.filter (fun c => c.isSuitable))).length
    hasClearTarget :=
      match (List.insertionSort scoreGE (cands.filter (fun c => c.isSuitable))).head? with
      | some c => decide (70 < c.suitabilityScore)
      | none => false
    bestRecommendation :=
      (List.insertionSort scoreGE (cands.filter (fun c => c.isSuitable))).head? }

/-- C10: the target-recommendation operation returns at most 5 recommendations,
in non-increasing order of suitability score, all marked suitable; the
reported `total_candidates` counts all suitable columns, is never below the
returned length, and can strictly exceed it (witnessed by six suitable
candidates). -/
theorem c10_target_recommendations :
    (∀ cands : List TargetCandidate,
      (recommendTargetColumns cands).recommendedTargets.length ≤ 5 ∧
      List.Sorted scoreGE (recommendTargetColumns cands).recommendedTargets ∧
      (recommendTargetColumns cands).totalCandidates =
        (cands.filter (fun c => c.isSuitable)).length ∧
      (recommendTargetColumns cands).recommendedTargets.length ≤
        (recommendTargetColumns cands).totalCandidates ∧
      (∀ c ∈ (recommendTargetColumns cands).recommendedTargets, c.isSuitable = true)) ∧
    (∃ cands : List TargetCandidate,
      (recommendTargetColumns cands).recommendedTargets.length <
        (recommendTargetColumns cands).totalCandidates) := by
  have hmain : ∀ cands : List TargetCandidate,
      (recommendTargetColumns cands).recommendedTargets.length ≤ 5 ∧
      List.Sorted scoreGE (recommendTargetColumns cands).recommendedTargets ∧
      (recommendTargetColumns cands).totalCandidates =
        (cands.filter (fun c => c.isSuitable)).length ∧
      (recommendTargetColumns cands).recommendedTargets.length ≤
        (recommendTargetColumns cands).totalCandidates ∧
      (∀ c ∈ (recommendTargetColumns cands).recommendedTargets, c.isSuitable = true) := by
    intro cands
    refine ⟨?_, ?_, ?_, ?_, ?_⟩
    · simpa [recommendTargetColumns] using
        (List.length_take 5 (List.insertionSort scoreGE
          (cands.filter (fun c => c.isSuitable)))).le.trans (min_le_left _ _)
    · exact List.Pairwise.sublist (List.take_sublist _ _)
        (List.sorted_insertionSort scoreGE _)
    · simpa [recommendTargetColumns] using
        (List.perm_insertionSort scoreGE (cands.filter (fun c => c.isSuitable))).length_eq
    · simp only [recommendTargetColumns]
      exact (List.length_take 5 _).le.trans (min_le_right _ _)
    · intro c hc
      have hmem : c ∈ List.insertionSort scoreGE (cands.filter (fun c => c.isSuitable)) :=
        (List.take_sublist _ _).mem hc
      have hmem2 : c ∈ cands.filter (fun c => c.isSuitable) :=
        (List.perm_insertionSort scoreGE _).mem_iff.mp hmem
      exact (List.mem_filter.mp hmem2).2
  refine ⟨hmain, ?_⟩
  refine ⟨List.replicate 6 ⟨"col", 0, true⟩, ?_⟩
  have h1 := (hmain (List.replicate 6 ⟨"col", 0, true⟩)).1
  have h2 := (hmain (List.replicate 6 ⟨"col", 0, true⟩)).2.2.1
  have h3 : (List.replicate 6 (⟨"col", 0, true⟩ : TargetCandidate)).filter
      (fun c => c.isSuitable) = List.replicate 6 ⟨"col", 0, true⟩ := by
    simp [List.filter_replicate]
  rw [h3, List.length_replicate] at h2
  omega

/-! ## Embedding of `MLProcessor._calculate_confidence_scores` (regression
branch, `backend/app/core/ml_processor.py`).

`std_pred = np.std(predictions)` is a numpy float, hence an exact nonnegative
rational; it is a parameter `stdPred` of the embedding.  Exact-arithmetic
facts about the spread itself (a single-element batch has zero spread) are
carried by `varQ`, the population variance of the batch, of which
`std_pred` is the square root: `std_pred > 0` iff `varQ > 0` and
`std_pred = 0` iff `varQ = 0`. -/

/-- Arithmetic mean of a batch (`np.mean`). -/
def meanQ (xs : List ℚ) : ℚ := xs.sum / (xs.length : ℚ)

/-- Population variance of a batch (the square of `np.std`). -/
def varQ (xs : List ℚ) : ℚ :=
  ((xs.map (fun x => (x - meanQ xs) ^ 2)).sum) / (xs.length : ℚ)

/-- Embeds the regression branch of `_calculate_confidence_scores`: with
positive spread every one of the `n` rows gets
`max(0.1, min(0.9, 1/(1+std_pred)))`; with zero spread every row gets the
fixed default 0.8. -/
def calcRegressionConfidence (stdPred : ℚ) (n : ℕ) : List ℚ :=
  if 0 < stdPred then
    List.replicate n (max (1 / 10) (min (9 / 10) (1 / (1 + stdPred))))
  else List.replicate n (8 / 10)

/-- C8: every row of a regression batch receives the same confidence; with
positive spread it is the normalized value clamped into [0.1, 0.9], and with
zero spread (in particular for every single-row batch, whose variance is 0)
it is exactly 0.8. -/
theorem c8_regression_confidence (stdPred : ℚ) (n : ℕ) (hnn : 0 ≤ stdPred) :
    (∀ c1 ∈ calcRegressionConfidence stdPred n,
      ∀ c2 ∈ calcRegressionConfidence stdPred n, c1 = c2) ∧
    (calcRegressionConfidence stdPred n).length = n ∧
    (0 < stdPred → ∀ c ∈ calcRegressionConfidence stdPred n,
      c = max (1 / 10) (min (9 / 10) (1 / (1 + stdPred))) ∧
        1 / 10 ≤ c ∧ c ≤ 9 / 10) ∧
    (stdPred = 0 → ∀ c ∈ calcRegressionConfidence stdPred n, c = 8 / 10) ∧
    (∀ x : ℚ, varQ [x] = 0) := by
  refine ⟨?_, ?_, ?_, ?_, ?_⟩
  · intro c1 h1 c2 h2
    unfold calcRegressionConfidence at h1 h2
    split_ifs at h1 h2 with hs
    · exact (List.eq_of_mem_replicate h1).trans (List.eq_of_mem_replicate h2).symm
    · exact (List.eq_of_mem_replicate h1).trans (List.eq_of_mem_replicate h2).symm
  · unfold calcRegressionConfidence
    split_ifs <;> exact List.length_replicate _ _
  · intro hs c hc
    unfold calcRegressionConfidence at hc
    rw [if_pos hs] at hc
    have hceq := List.eq_of_mem_replicate hc
    refine ⟨hceq, ?_, ?_⟩
    · rw [hceq]
      exact le_max_left _ _
    · rw [hceq]
      refine max_le (by norm_num) (min_le_left _ _)
  · intro hz c hc
    unfold calcRegressionConfidence at hc
    rw [hz, if_neg (lt_irrefl 0)] at hc
    exact List.eq_of_mem_replicate hc
  · intro x
    simp [varQ, meanQ]

/-- Witness for C8 at spread 2 over a two-row batch: both confidences equal
`max(0.1, min(0.9, 1/3)) = 1/3`. -/
theorem c8_regression_confidence_witness :
    (0 : ℚ) ≤ 2 ∧ (0 : ℚ) < 2 ∧
    (∀ c ∈ calcRegressionConfidence 2 2,
      c = max (1 / 10) (min (9 / 10) (1 / (1 + 2))) ∧ 1 / 10 ≤ c ∧ c ≤ 9 / 10) :=
  ⟨by norm_num, by norm_num,
    (c8_regression_confidence 2 2 (by norm_num)).2.2.1 (by norm_num)⟩

/-! ## Embedding of the feature validation in `MLProcessor.predict`
(`backend/app/core/ml_processor.py`).

`pd.DataFrame(input_data)` built from a list of dicts has as columns the
union of the rows' keys in order of first appearance; a row lacking a key
that another row supplies gets a null in that column.  The validation then
compares `set(metadata['feature_names'])` against `set(df.columns)` and
raises `ValueError("Missing required features: ...")` listing the difference,
else selects `df[expected_features]` (persisted order, extra columns
dropped).  Since none of this logic reads cell values, a row is embedded as
its list of field names. -/

/-- One `dict` row folded into the running column list (first-appearance
order, as pandas builds the frame's columns). -/
def dfColumnsAux (acc : List String) (r : List String) : List String :=
  r.foldl (fun a k => if k ∈ a then a else a ++ [k]) acc

/-- `pd.DataFrame(input_data).columns`. -/
def dfColumns (rows : List (List String)) : List String :=
  rows.foldl dfColumnsAux []

/-- Embeds the feature check plus column selection of `MLProcessor.predict`:
`Except.error ms` is the `ValueError` whose message lists `ms`; `Except.ok`
carries the selected column list `df[expected_features]`. -/
def validatePredictFeatures (expected : List String) (rows : List (List String)) :
    Except (List String) (List String) :=
  if (expected.filter (fun f => decide (f ∉ dfColumns rows))).isEmpty then
    Except.ok expected
  else Except.error (expected.filter (fun f => decide (f ∉ dfColumns rows)))

lemma mem_dfColumnsAux (f : String) (r : List String) (acc : List String) :
    f ∈ dfColumnsAux acc r ↔ f ∈ acc ∨ f ∈ r := by
  induction r generalizing acc with
  | nil => simp [dfColumnsAux]
  | cons k ks ih =>
    show f ∈ dfColumnsAux (if k ∈ acc then acc else acc ++ [k]) ks ↔ _
    by_cases hk : k ∈ acc
    · rw [if_pos hk, ih]
      constructor
      · rintro (h | h)
        · exact Or.inl h
        · exact Or.inr (List.mem_cons_of_mem _ h)
      · rintro (h | h)
        · exact Or.inl h
        · rcases List.mem_cons.mp h with rfl | h
          · exact Or.inl hk
          · exact Or.inr h
    · rw [if_neg hk, ih]
      simp only [List.mem_append, List.mem_singleton, List.mem_cons]
      tauto

lemma mem_dfColumns (f : String) (rows : List (List String)) :
    f ∈ dfColumns rows ↔ ∃ r ∈ rows, f ∈ r := by
  have hgen : ∀ (rs : List (List String)) (acc : List String),
      f ∈ rs.foldl dfColumnsAux acc ↔ f ∈ acc ∨ ∃ r ∈ rs, f ∈ r := by
    intro rs
    induction rs with
    | nil => simp
    | cons r rs ih =>
      intro acc
      show f ∈ rs.foldl dfColumnsAux (dfColumnsAux acc r) ↔ _
      rw [ih, mem_dfColumnsAux]
      simp only [List.mem_cons]
      constructor
      · rintro ((h | h) | ⟨r', hr', hf⟩)
        · exact Or.inl h
        · exact Or.inr ⟨r, Or.inl rfl, h⟩
        · exact Or.inr ⟨r', Or.inr hr', hf⟩
      · rintro (h | ⟨r', (rfl | hr'), hf⟩)
        · exact Or.inl (Or.inl h)
        · exact Or.inl (Or.inr hf)
        · exact Or.inr ⟨r', hr', hf⟩
  simpa using hgen rows []

/-- C1 counterexample to the claim as stated: with persisted features
`["a", "b"]`, the second request row omits feature `"b"`, yet the first row
supplies it, so the frame has a `"b"` column and prediction proceeds (no
MissingFeatures error is raised). -/
theorem c1_counterexample :
    (∃ r ∈ [["a", "b"], ["a"]], ∃ f ∈ ["a", "b"], f ∉ r) ∧
    validatePredictFeatures ["a", "b"] [["a", "b"], ["a"]] = Except.ok ["a", "b"] := by
  constructor
  · exact ⟨["a"], by simp, "b", by simp, by simp⟩
  · rfl

/-- C1 amended: the MissingFeatures error is raised iff some persisted
feature is supplied by *no* request row (absent from the frame's column
union); the error then lists exactly those features, and otherwise the
prediction proceeds on the persisted column order with extra caller-supplied
fields dropped. -/
theorem c1_missing_features_amended (expected : List String) (rows : List (List String)) :
    ((∃ f ∈ expected, ∀ r ∈ rows, f ∉ r) →
      ∃ ms, validatePredictFeatures expected rows = Except.error ms ∧ ms ≠ [] ∧
        (∀ f, f ∈ ms ↔ (f ∈ expected ∧ ∀ r ∈ rows, f ∉ r))) ∧
    ((∀ f ∈ expected, ∃ r ∈ rows, f ∈ r) →
      validatePredictFeatures expected rows = Except.ok expected) := by
  have hmem : ∀ f, f ∈ expected.filter (fun f => decide (f ∉ dfColumns rows)) ↔
      (f ∈ expected ∧ ∀ r ∈ rows, f ∉ r) := by
    intro f
    rw [List.mem_filter]
    constructor
    · rintro ⟨hfe, hdec⟩
      refine ⟨hfe, ?_⟩
      intro r hr hfr
      exact (of_decide_eq_true hdec) ((mem_dfColumns f rows).mpr ⟨r, hr, hfr⟩)
    · rintro ⟨hfe, hno⟩
      refine ⟨hfe, decide_eq_true ?_⟩
      intro hcol
      rcases (mem_dfColumns f rows).mp hcol with ⟨r, hr, hfr⟩
      exact hno r hr hfr
  constructor
  · rintro ⟨f, hfe, hno⟩
    have hfm : f ∈ expected.filter (fun f => decide (f ∉ dfColumns rows)) :=
      (hmem f).mpr ⟨hfe, hno⟩
    have hne : expected.filter (fun f => decide (f ∉ dfColumns rows)) ≠ [] := by
      intro hnil
      rw [hnil] at hfm
      exact List.not_mem_nil f hfm
    refine ⟨expected.filter (fun f => decide (f ∉ dfColumns rows)), ?_, hne, hmem⟩
    unfold validatePredictFeatures
    rw [if_neg ?_]
    intro hemp
    exact hne (List.isEmpty_iff.mp hemp)
  · intro hall
    have hnil : expected.filter (fun f => decide (f ∉ dfColumns rows)) = [] := by
      rcases hfil : expected.filter (fun f => decide (f ∉ dfColumns rows)) with _ | ⟨f, fs⟩
      · rfl
      · exfalso
        have hfm : f ∈ expected.filter (fun f => decide (f ∉ dfColumns rows)) := by
          rw [hfil]
          exact List.mem_cons_self f fs
        rcases (hmem f).mp hfm with ⟨hfe, hno⟩
        rcases hall f hfe with ⟨r, hr, hfr⟩
        exact hno r hr hfr
    unfold validatePredictFeatures
    rw [if_pos (by rw [hnil]; rfl)]

/-- Witness for C1 amended: feature `"b"` appears in no row, so validation
fails and the error names exactly `"b"`. -/
theorem c1_missing_features_amended_witness :
    (∃ f ∈ ["a", "b"], ∀ r ∈ [["a", "c"]], f ∉ r) ∧
    (∃ ms, validatePredictFeatures ["a", "b"] [["a", "c"]] = Except.error ms ∧ ms ≠ [] ∧
      (∀ f, f ∈ ms ↔ (f ∈ ["a", "b"] ∧ ∀ r ∈ [["a", "c"]], f ∉ r))) := by
  have h : ∃ f ∈ ["a", "b"], ∀ r ∈ [["a", "c"]], f ∉ r := by
    refine ⟨"b", by simp, ?_⟩
    intro r hr
    rcases List.mem_singleton.mp hr with rfl
    simp
  exact ⟨h, (c1_missing_features_amended ["a", "b"] [["a", "c"]]).1 h⟩

/-! ## Embedding of the `/train/` endpoint validation sequence
(`backend/app/api/train.py`, `train_model`).

The endpoint checks, in order: database session lookup (404
`SESSION_NOT_FOUND`), physical file lookup (404 `FILE_NOT_FOUND`),
`test_size` range (400 `INVALID_TEST_SIZE`), supported algorithm (400
`UNSUPPORTED_ALGORITHM`), valid model type (400 `INVALID_MODEL_TYPE`), and
only then calls `ml_processor.train_model`, which is the only code path that
persists model artifacts (`save_model` writing the pipeline and metadata
files).  The training call and whatever it persists are abstracted as the
environment field `trainRun`; the pair's first component is the list of
artifacts the call persisted. -/

structure TrainReq where
  sessionId : String
  targetColumn : String
  modelType : String
  algorithm : String
  testSize : ℚ
  randomState : ℤ

structure HTTPDetail where
  statusCode : ℕ
  errCode : String

inductive ModelArtifact where
  | pipelineFile (modelId : String)
  | metadataFile (modelId : String)

structure TrainEnv where
  sessionFound : Bool
  fileFound : Bool
  trainRun : TrainReq → List ModelArtifact × Except HTTPDetail String

def supportedAlgorithms : List String := ["random_forest", "logistic_regression", "xgboost"]

def validModelTypes : List String := ["auto", "classification", "regression"]

/-- Embeds the `/train/` endpoint: the returned list is every model artifact
the request persisted, the `Except` is the HTTP outcome. -/
def trainEndpoint (env : TrainEnv) (req : TrainReq) :
    List ModelArtifact × Except HTTPDetail String :=
  if env.sessionFound = false then ([], Except.error ⟨404, "SESSION_NOT_FOUND"⟩)
  else if env.fileFound = false then ([], Except.error ⟨404, "FILE_NOT_FOUND"⟩)
  else if req.testSize < 1 / 10 ∨ 1 / 2 < req.testSize then
    ([], Except.error ⟨400, "INVALID_TEST_SIZE"⟩)
  else if req.algorithm ∉ supportedAlgorithms then
    ([], Except.error ⟨400, "UNSUPPORTED_ALGORITHM"⟩)
  else if req.modelType ∉ validModelTypes then
    ([], Except.error ⟨400, "INVALID_MODEL_TYPE"⟩)
  else env.trainRun req

/-- C5: a training request whose `test_size` lies outside [0.1, 0.5] never
reaches training: no model artifact (neither pipeline nor metadata file) is
persisted, the response is an error, and whenever the request passes the
earlier session and file lookups the error is exactly the 400
`INVALID_TEST_SIZE` validation error. -/
theorem c5_test_size_validation (env : TrainEnv) (req : TrainReq)
    (h : req.testSize < 1 / 10 ∨ 1 / 2 < req.testSize) :
    (trainEndpoint env req).1 = [] ∧
    (∃ d, (trainEndpoint env req).2 = Except.error d) ∧
    (env.sessionFound = true → env.fileFound = true →
      (trainEndpoint env req).2 = Except.error ⟨400, "INVALID_TEST_SIZE"⟩) := by
  unfold trainEndpoint
  rcases hs : env.sessionFound with _ | _
  · rw [if_pos rfl]
    exact ⟨rfl, ⟨_, rfl⟩, fun hxs _ => by cases hxs⟩
  · rw [if_neg (by simp)]
    rcases hf : env.fileFound with _ | _
    · rw [if_pos rfl]
      exact ⟨rfl, ⟨_, rfl⟩, fun _ hxf => by cases hxf⟩
    · rw [if_neg (by simp), if_pos h]
      exact ⟨rfl, ⟨_, rfl⟩, fun _ _ => rfl⟩

/-- Witness for C5: `test_size = 0.6` with a found session and file yields the
400 `INVALID_TEST_SIZE` error and persists nothing. -/
theorem c5_test_size_validation_witness :
    ((3 / 5 : ℚ) < 1 / 10 ∨ (1 / 2 : ℚ) < 3 / 5) ∧
    (trainEndpoint ⟨true, true, fun _ => ([ModelArtifact.pipelineFile "m"], Except.ok "m")⟩
        ⟨"s", "y", "auto", "random_forest", 3 / 5, 42⟩).1 = [] ∧
    (trainEndpoint ⟨true, true, fun _ => ([ModelArtifact.pipelineFile "m"], Except.ok "m")⟩
        ⟨"s", "y", "auto", "random_forest", 3 / 5, 42⟩).2 =
      Except.error ⟨400, "INVALID_TEST_SIZE"⟩ := by
  have h : ((3 / 5 : ℚ) < 1 / 10 ∨ (1 / 2 : ℚ) < 3 / 5) := by norm_num
  have hc := c5_test_size_validation
    ⟨true, true, fun _ => ([ModelArtifact.pipelineFile "m"], Except.ok "m")⟩
    ⟨"s", "y", "auto", "random_forest", 3 / 5, 42⟩ h
  exact ⟨h, hc.1, hc.2.2 rfl rfl⟩

/-! ## Embedding of `MLProcessor.generate_model_id`
(`backend/app/core/ml_processor.py`).

`f"model_{session_id[:8]}_{timestamp}"` with
`timestamp = datetime.now().strftime("%Y%m%d_%H%M%S")`.  Strings are embedded
as `List Char`; `strftime` zero-pads the year to 4 digits and every other
component to 2 digits, which is faithful for the representable wall-clock
range (year below 10000). -/

structure PyTimestamp where
  year : ℕ
  month : ℕ
  day : ℕ
  hour : ℕ
  minute : ℕ
  second : ℕ

/-- Component bounds under which `strftime("%Y%m%d_%H%M%S")` emits fixed-width
fields (every real `datetime.now()` satisfies them). -/
def validTs (t : PyTimestamp) : Prop :=
  t.year < 10000 ∧ t.month < 100 ∧ t.day < 100 ∧ t.hour < 100 ∧
    t.minute < 100 ∧ t.second < 100

instance (t : PyTimestamp) : Decidable (validTs t) := by
  unfold validTs
  infer_instance

/-- Two-digit zero-padded decimal field (`%m`, `%d`, `%H`, `%M`, `%S`). -/
def fmt2 (n : ℕ) : List Char := [Nat.digitChar (n / 10 % 10), Nat.digitChar (n % 10)]

/-- Four-digit zero-padded decimal field (`%Y`). -/
def fmt4 (n : ℕ) : List Char :=
  [Nat.digitChar (n / 1000 % 10), Nat.digitChar (n / 100 % 10),
   Nat.digitChar (n / 10 % 10), Nat.digitChar (n % 10)]

/-- `datetime.strftime("%Y%m%d_%H%M%S")`. -/
def fmtTimestamp (t : PyTimestamp) : List Char :=
  fmt4 t.year ++ (fmt2 t.month ++ (fmt2 t.day ++
    ('_' :: (fmt2 t.hour ++ (fmt2 t.minute ++ fmt2 t.second)))))

/-- Embeds `MLProcessor.generate_model_id`:
`f"model_{session_id[:8]}_{timestamp}"`. -/
def generateModelId (sessionId : List Char) (t : PyTimestamp) : List Char :=
  "model_".toList ++ (sessionId.take 8 ++ ('_' :: fmtTimestamp t))

lemma digitChar_inj_lt : ∀ a < 10, ∀ b < 10, Nat.digitChar a = Nat.digitChar b → a = b := by
  decide

lemma fmt2_inj {a b : ℕ} (ha : a < 100) (hb : b < 100) (h : fmt2 a = fmt2 b) : a = b := by
  unfold fmt2 at h
  simp only [List.cons.injEq, and_true] at h
  have h1 := digitChar_inj_lt _ (Nat.mod_lt _ (by norm_num)) _ (Nat.mod_lt _ (by norm_num)) h.1
  have h2 := digitChar_inj_lt _ (Nat.mod_lt _ (by norm_num)) _ (Nat.mod_lt _ (by norm_num)) h.2
  omega

lemma fmt4_inj {a b : ℕ} (ha : a < 10000) (hb : b < 10000) (h : fmt4 a = fmt4 b) : a = b := by
  unfold fmt4 at h
  simp only [List.cons.injEq, and_true] at h
  have h1 := digitChar_inj_lt _ (Nat.mod_lt _ (by norm_num)) _ (Nat.mod_lt _ (by norm_num)) h.1
  have h2 := digitChar_inj_lt _ (Nat.mod_lt _ (by norm_num)) _ (Nat.mod_lt _ (by norm_num)) h.2.1
  have h3 := digitChar_inj_lt _ (Nat.mod_lt _ (by norm_num)) _ (Nat.mod_lt _ (by norm_num)) h.2.2.1
  have h4 := digitChar_inj_lt _ (Nat.mod_lt _ (by norm_num)) _ (Nat.mod_lt _ (by norm_num)) h.2.2.2
  omega

lemma fmtTimestamp_inj {t1 t2 : PyTimestamp} (h1 : validTs t1) (h2 : validTs t2)
    (h : fmtTimestamp t1 = fmtTimestamp t2) : t1 = t2 := by
  unfold fmtTimestamp at h
  obtain ⟨hy, h⟩ := List.append_inj h rfl
  obtain ⟨hmo, h⟩ := List.append_inj h rfl
  obtain ⟨hd, h⟩ := List.append_inj h rfl
  simp only [List.cons.injEq, true_and] at h
  obtain ⟨hh, h⟩ := List.append_inj h rfl
  obtain ⟨hmi, hs⟩ := List.append_inj h rfl
  obtain ⟨hy1, hmo1, hd1, hh1, hmi1, hs1⟩ := h1
  obtain ⟨hy2, hmo2, hd2, hh2, hmi2, hs2⟩ := h2
  cases t1
  cases t2
  simp only [PyTimestamp.mk.injEq]
  exact ⟨fmt4_inj hy1 hy2 hy, fmt2_inj hmo1 hmo2 hmo, fmt2_inj hd1 hd2 hd,
    fmt2_inj hh1 hh2 hh, fmt2_inj hmi1 hmi2 hmi, fmt2_inj hs1 hs2 hs⟩

/-- C2 counterexample to the claim as stated: two distinct session tokens
sharing their first 8 characters produce, at the same training second, the
very same model identifier — so distinct session tokens alone do not
guarantee distinct ids. -/
theorem c2_counterexample :
    "abcdefghXX".toList ≠ "abcdefghYY".toList ∧
    generateModelId "abcdefghXX".toList ⟨2026, 10, 12, 9, 30, 0⟩ =
      generateModelId "abcdefghYY".toList ⟨2026, 10, 12, 9, 30, 0⟩ := by
  constructor
  · decide
  · rfl

/-- C2 amended: model identifiers are distinct whenever the 8-character
session-token prefixes differ or the training timestamps differ at second
granularity. -/
theorem c2_model_id_amended (s1 s2 : List Char) (t1 t2 : PyTimestamp)
    (hv1 : validTs t1) (hv2 : validTs t2)
    (hne : s1.take 8 ≠ s2.take 8 ∨ t1 ≠ t2) :
    generateModelId s1 t1 ≠ generateModelId s2 t2 := by
  intro heq
  unfold generateModelId at heq
  have hq : s1.take 8 ++ ('_' :: fmtTimestamp t1) = s2.take 8 ++ ('_' :: fmtTimestamp t2) :=
    List.append_cancel_left heq
  have hlen : ('_' :: fmtTimestamp t1).length = ('_' :: fmtTimestamp t2).length := by
    simp [fmtTimestamp, fmt2, fmt4]
  obtain ⟨hpre, htail⟩ := List.append_inj' hq hlen
  simp only [List.cons.injEq, true_and] at htail
  rcases hne with hne | hne
  · exact hne hpre
  · exact hne (fmtTimestamp_inj hv1 hv2 htail)

/-- Witness for C2 amended at two sessions with different first characters
and one fixed timestamp. -/
theorem c2_model_id_amended_witness :
    validTs ⟨2026, 10, 12, 9, 30, 0⟩ ∧
    ("abcdefgh".toList.take 8 ≠ "zbcdefgh".toList.take 8 ∨
      (⟨2026, 10, 12, 9, 30, 0⟩ : PyTimestamp) ≠ ⟨2026, 10, 12, 9, 30, 0⟩) ∧
    generateModelId "abcdefgh".toList ⟨2026, 10, 12, 9, 30, 0⟩ ≠
      generateModelId "zbcdefgh".toList ⟨2026, 10, 12, 9, 30, 0⟩ := by
  refine ⟨by decide, Or.inl (by decide), ?_⟩
  exact c2_model_id_amended _ _ _ _ (by decide) (by decide) (Or.inl (by decide))

/-! ## Embedding of the completeness score in
`DataProcessor.assess_data_quality` (`backend/app/core/data_processor.py`).

`total_cells = df.shape[0] * df.shape[1]`, `missing_cells =
df.isnull().sum().sum()`, `completeness = (total_cells - missing_cells) /
total_cells if total_cells > 0 else 0`, reported as
`round(completeness, 3)`.  Only cell nullity matters, so a frame is embedded
as its column count plus one Boolean null-mask per row (every row having the
frame's width).  Python's `round` is round-half-to-even; on the exact
rationals the code produces here it is embedded by `rhe`. -/

/-- Round half to even to the nearest integer (Python's `round`). -/
def rhe (x : ℚ) : ℤ :=
  if x - ⌊x⌋ < 1 / 2 then ⌊x⌋
  else if 1 / 2 < x - ⌊x⌋ then ⌊x⌋ + 1
  else if ⌊x⌋ % 2 = 0 then ⌊x⌋ else ⌊x⌋ + 1

/-- Python's `round(x, 3)`. -/
def round3 (x : ℚ) : ℚ := ((rhe (1000 * x) : ℤ) : ℚ) / 1000

structure QualityDF where
  ncols : ℕ
  rows : List (List Bool)
  hwf : ∀ r ∈ rows, r.length = ncols

/-- `df.shape[0] * df.shape[1]`. -/
def totalCells (df : QualityDF) : ℕ := df.rows.length * df.ncols

/-- `df.isnull().sum().sum()`. -/
def missingCells (df : QualityDF) : ℕ := (df.rows.map (fun r => r.countP id)).sum

/-- `completeness` before rounding. -/
def completenessRaw (df : QualityDF) : ℚ :=
  if 0 < totalCells df then
    ((totalCells df : ℚ) - (missingCells df : ℚ)) / (totalCells df : ℚ)
  else 0

/-- The completeness value reported by `assess_data_quality`:
`round(completeness, 3)`. -/
def assessCompleteness (df : QualityDF) : ℚ := round3 (completenessRaw df)

lemma missingCells_le_totalCells (df : QualityDF) : missingCells df ≤ totalCells df := by
  unfold missingCells totalCells
  calc (df.rows.map (fun r => r.countP id)).sum
      ≤ (df.rows.map (fun r => r.length)).sum :=
        List.sum_le_sum (fun r _ => List.countP_le_length _)
    _ = (df.rows.map (fun _ => df.ncols)).sum := by
        rw [List.map_congr_left]
        intro r hr
        exact df.hwf r hr
    _ = df.rows.length * df.ncols := by
        induction df.rows with
        | nil => simp
        | cons r rs ih =>
          simp only [List.map_cons, List.sum_cons, ih, List.length_cons]
          ring

lemma rhe_mem {x : ℚ} : rhe x = ⌊x⌋ ∨ rhe x = ⌊x⌋ + 1 := by
  unfold rhe
  split_ifs <;> simp

lemma rhe_nonneg {x : ℚ} (hx : 0 ≤ x) : 0 ≤ rhe x := by
  have hfl : (0 : ℤ) ≤ ⌊x⌋ := by
    rw [Int.le_floor]
    exact_mod_cast hx
  rcases rhe_mem (x := x) with h | h <;> omega

lemma rhe_le_1000 {x : ℚ} (hx : x ≤ 1000) : rhe x ≤ 1000 := by
  have hfl : ⌊x⌋ ≤ 1000 := by
    rw [Int.floor_le_iff]
    calc x ≤ 1000 := hx
      _ < 1000 + 1 := by norm_num
  by_cases heq : ⌊x⌋ = 1000
  · have hge : (1000 : ℚ) ≤ x := by
      have := Int.floor_le x
      rw [heq] at this
      exact_mod_cast this
    have hx1000 : x = 1000 := le_antisymm hx hge
    unfold rhe
    rw [hx1000]
    have hfl1000 : ⌊(1000 : ℚ)⌋ = 1000 := by norm_num
    rw [hfl1000, if_pos (by push_cast; norm_num)]
  · have hfl9 : ⌊x⌋ ≤ 999 := by omega
    rcases rhe_mem (x := x) with h | h <;> omega

lemma rhe_eq_1000_iff {x : ℚ} (hx : x ≤ 1000) : rhe x = 1000 ↔ (1999 / 2 : ℚ) ≤ x := by
  constructor
  · intro h
    unfold rhe at h
    split_ifs at h with h1 h2 h3
    · have := Int.floor_le x
      rw [h] at this
      calc (1999 / 2 : ℚ) ≤ 1000 := by norm_num
        _ ≤ x := by exact_mod_cast this
    · have hfl : ⌊x⌋ = 999 := by omega
      rw [hfl] at h2
      calc (1999 / 2 : ℚ) = 999 + 1 / 2 := by norm_num
        _ ≤ 999 + (x - 999) := by linarith
        _ = x := by ring
    · have := Int.floor_le x
      rw [h] at this
      calc (1999 / 2 : ℚ) ≤ 1000 := by norm_num
        _ ≤ x := by exact_mod_cast this
    · have hfl : ⌊x⌋ = 999 := by omega
      have htie : x - ⌊x⌋ = 1 / 2 := le_antisymm (not_lt.mp h2) (not_lt.mp h1)
      rw [hfl] at htie
      have : x = 999 + 1 / 2 := by
        push_cast at htie
        linarith
      rw [this]
      norm_num
  · intro hge
    have hfl : ⌊x⌋ = 999 ∨ ⌊x⌋ = 1000 := by
      have hlo : (999 : ℤ) ≤ ⌊x⌋ := by
        rw [Int.le_floor]
        calc ((999 : ℤ) : ℚ) = 999 := by norm_num
          _ ≤ 1999 / 2 := by norm_num
          _ ≤ x := hge
      have hhi : ⌊x⌋ ≤ 1000 := by
        rw [Int.floor_le_iff]
        calc x ≤ 1000 := hx
          _ < 1000 + 1 := by norm_num
      omega
    rcases hfl with hfl | hfl
    · unfold rhe
      rw [hfl]
      have hfr : (1 / 2 : ℚ) ≤ x - 999 := by
        have : (1999 / 2 : ℚ) = 999 + 1 / 2 := by norm_num
        linarith [hge.trans_eq' this.symm]
      have hnotlt : ¬ (x - ((999 : ℤ) : ℚ) < 1 / 2) := by
        push_cast
        linarith
      rw [if_neg hnotlt]
      by_cases htie : (1 / 2 : ℚ) < x - ((999 : ℤ) : ℚ)
      · rw [if_pos htie]
        norm_num
      · rw [if_neg htie, if_neg (by norm_num)]
        norm_num
    · unfold rhe
      rw [hfl]
      have hge1000 : ((1000 : ℤ) : ℚ) ≤ x := by
        have := Int.floor_le x
        rw [hfl] at this
        exact this
      have hx1000 : x = 1000 := le_antisymm hx (by exact_mod_cast hge1000)
      rw [if_pos (by rw [hx1000]; norm_num)]

/-- The concrete 100-row, 40-column frame with exactly one missing cell used
against C6. -/
def dfOneMissing : QualityDF where
  ncols := 40
  rows := (true :: List.replicate 39 false) :: List.replicate 99 (List.replicate 40 false)
  hwf := by
    intro r hr
    rcases List.mem_cons.mp hr with rfl | h
    · simp
    · rw [List.eq_of_mem_replicate h]
      simp

/-- C6 counterexample to the claim as stated: a 4000-cell frame with exactly
one missing cell still reports completeness exactly 1.0, because
`round(3999/4000, 3) = 1.0`. -/
theorem c6_counterexample :
    missingCells dfOneMissing = 1 ∧ 0 < totalCells dfOneMissing ∧
    assessCompleteness dfOneMissing = 1 := by
  have hmiss : missingCells dfOneMissing = 1 := by decide
  have htot : totalCells dfOneMissing = 4000 := by decide
  refine ⟨hmiss, by omega, ?_⟩
  have hraw : completenessRaw dfOneMissing = 3999 / 4000 := by
    unfold completenessRaw
    rw [if_pos (by omega), hmiss, htot]
    norm_num
  have harg : (1000 : ℚ) * (3999 / 4000) = 3999 / 4 := by norm_num
  have hfl : ⌊(3999 / 4 : ℚ)⌋ = 999 := by
    rw [Int.floor_eq_iff] <;> norm_num
  have hrhe : rhe (3999 / 4 : ℚ) = 1000 := by
    unfold rhe
    rw [hfl, if_neg (by push_cast; norm_num), if_pos (by push_cast; norm_num)]
    norm_num
  unfold assessCompleteness round3
  rw [hraw, harg, hrhe]
  norm_num

/-- C6 amended: for every frame with at least one cell the reported
completeness lies in [0, 1], and it equals 1.0 exactly when the missing-cell
fraction is at most 1/2000 (i.e. `2000 * missing_cells ≤ total_cells`; with
zero missing cells as a special case) — rounding to 3 decimals makes tiny
but non-zero missingness still report 1.0. -/
theorem c6_completeness_amended (df : QualityDF) (h : 0 < totalCells df) :
    (0 ≤ assessCompleteness df ∧ assessCompleteness df ≤ 1) ∧
    (assessCompleteness df = 1 ↔ 2000 * missingCells df ≤ totalCells df) := by
  have hML := missingCells_le_totalCells df
  have hTpos : (0 : ℚ) < (totalCells df : ℚ) := by exact_mod_cast h
  have hraw : completenessRaw df =
      ((totalCells df : ℚ) - (missingCells df : ℚ)) / (totalCells df : ℚ) := by
    unfold completenessRaw
    rw [if_pos h]
  have hraw0 : 0 ≤ completenessRaw df := by
    rw [hraw]
    apply div_nonneg _ hTpos.le
    have : (missingCells df : ℚ) ≤ (totalCells df : ℚ) := by exact_mod_cast hML
    linarith
  have hraw1 : completenessRaw df ≤ 1 := by
    rw [hraw, div_le_one hTpos]
    have : (0 : ℚ) ≤ (missingCells df : ℚ) := by positivity
    linarith
  have harg0 : (0 : ℚ) ≤ 1000 * completenessRaw df := by linarith
  have harg1 : 1000 * completenessRaw df ≤ 1000 := by linarith
  constructor
  · constructor
    · unfold assessCompleteness round3
      apply div_nonneg _ (by norm_num)
      exact_mod_cast rhe_nonneg harg0
    · unfold assessCompleteness round3
      rw [div_le_one (by norm_num)]
      exact_mod_cast rhe_le_1000 harg1
  · unfold assessCompleteness round3
    rw [div_eq_one_iff_eq (by norm_num : (1000 : ℚ) ≠ 0)]
    have hcast : (((rhe (1000 * completenessRaw df)) : ℤ) : ℚ) = 1000 ↔
        rhe (1000 * completenessRaw df) = 1000 := by
      exact_mod_cast Iff.rfl
    rw [hcast, rhe_eq_1000_iff harg1, hraw, ← mul_div_assoc, le_div_iff hTpos]
    constructor
    · intro hle
      have h2 : 2000 * (missingCells df : ℚ) ≤ (totalCells df : ℚ) := by linarith
      exact_mod_cast h2
    · intro hle
      have h2 : 2000 * (missingCells df : ℚ) ≤ (totalCells df : ℚ) := by exact_mod_cast hle
      linarith

/-- Witness for C6 amended at a 1-by-1 frame with no missing cell:
completeness is in bounds and equals 1. -/
theorem c6_completeness_amended_witness :
    0 < totalCells ⟨1, [[false]], by decide⟩ ∧
    ((0 ≤ assessCompleteness ⟨1, [[false]], by decide⟩ ∧
      assessCompleteness ⟨1, [[false]], by decide⟩ ≤ 1) ∧
     (assessCompleteness ⟨1, [[false]], by decide⟩ = 1 ↔
      2000 * missingCells ⟨1, [[false]], by decide⟩ ≤ totalCells ⟨1, [[false]], by decide⟩)) :=
  ⟨by decide, c6_completeness_amended ⟨1, [[false]], by decide⟩ (by decide)⟩

/-! ## Embedding of `DataProcessor.calculate_correlations`
(`backend/app/core/data_processor.py`).

`numerical_cols = df.select_dtypes(include=[np.number]).columns` is embedded
by filtering an abstract frame given as a list of (column name, has numeric
dtype) pairs.  `corr_matrix = df[numerical_cols].corr()` is a pandas/numpy
computation, embedded as an abstract matrix `corr : ℕ → ℕ → Option ℚ`
indexed by positions in `numerical_cols` (`none` is a NaN entry, which the
code skips via `pd.isna`); the theorems hold for every matrix, hence for the
one pandas computes.  The dict written by the double loop over
`enumerate(numerical_cols)` keeping `i < j` and `|r| > 0.3` is embedded as
the list of ((col1, col2), round(r, 3)) entries in insertion order. -/

/-- `df.select_dtypes(include=[np.number]).columns`. -/
def numericColumns (df : List (String × Bool)) : List String :=
  (df.filter (fun c => c.2)).map (fun c => c.1)

/-- The index pairs visited with `i < j` by the nested
`for i, col1 in enumerate(...)` / `for j, col2 in enumerate(...)` loops. -/
def pairIndices (n : ℕ) : List (ℕ × ℕ) :=
  (List.range n).flatMap (fun i =>
    (List.range n).filterMap (fun j => if i < j then some (i, j) else none))

/-- The dict key `f"{col1}_{col2}"`: the two column names joined by an
underscore.  Distinct pairs can produce the same key when names themselves
contain underscores. -/
def corrKey (a b : String) : String := a ++ "_" ++ b

/-- One iteration of the nested loop at index pair `ij`: skip a NaN entry
(`pd.isna`) and a correlation with `|r| ≤ 0.3`, otherwise produce the dict
write `correlations[f"{col1}_{col2}"] = round(r, 3)`. -/
def corrStep (cols : List String) (corr : ℕ → ℕ → Option ℚ) (ij : ℕ × ℕ) :
    Option (String × ℚ) :=
  (corr ij.1 ij.2).bind (fun r =>
    if 3 / 10 < |r| then some (corrKey (cols.getD ij.1 "") (cols.getD ij.2 ""), round3 r)
    else none)

/-- The sequence of dict writes the double loop performs, in program order:
empty when fewer than two numeric columns exist. -/
def corrWrites (cols : List String) (corr : ℕ → ℕ → Option ℚ) : List (String × ℚ) :=
  if cols.length < 2 then []
  else (pairIndices cols.length).filterMap (corrStep cols corr)

/-- Python dict assignment `m[k] = v`: replace the value in place if the key
is present, else append the new binding. -/
def dictInsert (m : List (String × ℚ)) (k : String) (v : ℚ) : List (String × ℚ) :=
  if m.any (fun e => e.1 == k) then m.map (fun e => if e.1 == k then (k, v) else e)
  else m ++ [(k, v)]

/-- `calculate_correlations` on a frame: the `correlations` dict after all
writes, represented as its binding list (keys unique, insertion order). -/
def calculateCorrelations (df : List (String × Bool)) (corr : ℕ → ℕ → Option ℚ) :
    List (String × ℚ) :=
  (corrWrites (numericColumns df) corr).foldl (fun m kv => dictInsert m kv.1 kv.2) []

lemma mem_pairIndices {n i j : ℕ} : (i, j) ∈ pairIndices n ↔ i < j ∧ j < n := by
  constructor
  · intro h
    rcases List.mem_flatMap.mp h with ⟨a, _, hb⟩
    rcases List.mem_filterMap.mp hb with ⟨b, hbr, heq⟩
    by_cases hab : a < b
    · rw [if_pos hab] at heq
      obtain ⟨rfl, rfl⟩ : a = i ∧ b = j := by
        constructor <;> · injection heq with h2; injection h2
      exact ⟨hab, List.mem_range.mp hbr⟩
    · rw [if_neg hab] at heq
      cases heq
  · rintro ⟨hij, hjn⟩
    refine List.mem_flatMap.mpr ⟨i, List.mem_range.mpr (lt_trans hij hjn), ?_⟩
    exact List.mem_filterMap.mpr ⟨j, List.mem_range.mpr hjn, by rw [if_pos hij]⟩

lemma mem_corrWrites {cols : List String} {corr : ℕ → ℕ → Option ℚ}
    {k : String} {v : ℚ} :
    (k, v) ∈ corrWrites cols corr ↔
      (2 ≤ cols.length ∧ ∃ i j r, i < j ∧ j < cols.length ∧ corr i j = some r ∧
        3 / 10 < |r| ∧ k = corrKey (cols.getD i "") (cols.getD j "") ∧ v = round3 r) := by
  unfold corrWrites
  by_cases hlen : cols.length < 2
  · rw [if_pos hlen]
    simp only [List.not_mem_nil, false_iff, not_and]
    intro h2
    omega
  · rw [if_neg hlen]
    constructor
    · intro h
      rcases List.mem_filterMap.mp h with ⟨ij, hij, heq⟩
      rcases ij with ⟨i, j⟩
      rcases mem_pairIndices.mp hij with ⟨hlt, hjn⟩
      refine ⟨by omega, i, j, ?_⟩
      unfold corrStep at heq
      rcases hc : corr i j with _ | r
      · rw [hc, Option.none_bind] at heq
        cases heq
      · rw [hc, Option.some_bind] at heq
        by_cases habs : (3 / 10 : ℚ) < |r|
        · rw [if_pos habs] at heq
          have hpv := Option.some.inj heq
          have h1 := congrArg Prod.fst hpv
          have h2 := congrArg Prod.snd hpv
          exact ⟨r, hlt, hjn, rfl, habs, h1.symm, h2.symm⟩
        · rw [if_neg habs] at heq
          cases heq
    · rintro ⟨-, i, j, r, hlt, hjn, hc, habs, hk, hv⟩
      refine List.mem_filterMap.mpr ⟨(i, j), mem_pairIndices.mpr ⟨hlt, hjn⟩, ?_⟩
      unfold corrStep
      rw [hc, Option.some_bind, if_pos habs, hk, hv]

lemma mem_dictInsert {m : List (String × ℚ)} {k : String} {v : ℚ}
    {e : String × ℚ} (h : e ∈ dictInsert m k v) : e ∈ m ∨ e = (k, v) := by
  unfold dictInsert at h
  split_ifs at h with hany
  · rcases List.mem_map.mp h with ⟨x, hx, hfx⟩
    by_cases hxk : x.1 == k
    · rw [if_pos hxk] at hfx
      exact Or.inr hfx.symm
    · rw [if_neg hxk] at hfx
      rw [← hfx]
      exact Or.inl hx
  · rcases List.mem_append.mp h with hm | hs
    · exact Or.inl hm
    · exact Or.inr (List.mem_singleton.mp hs)

lemma mem_foldl_dictInsert {ws : List (String × ℚ)} {acc : List (String × ℚ)}
    {e : String × ℚ}
    (h : e ∈ ws.foldl (fun m kv => dictInsert m kv.1 kv.2) acc) :
    e ∈ acc ∨ e ∈ ws := by
  induction ws generalizing acc with
  | nil => exact Or.inl h
  | cons kv ws ih =>
    rcases ih h with hacc | hws
    · rcases mem_dictInsert hacc with hm | hkv
      · exact Or.inl hm
      · exact Or.inr (by rw [hkv]; exact List.mem_cons_self _ _)
    · exact Or.inr (List.mem_cons_of_mem _ hws)

/-- Every binding of the final `correlations` dict is one of the writes the
double loop performed. -/
lemma mem_calculateCorrelations {df : List (String × Bool)}
    {corr : ℕ → ℕ → Option ℚ} {k : String} {v : ℚ}
    (h : (k, v) ∈ calculateCorrelations df corr) :
    (k, v) ∈ corrWrites (numericColumns df) corr := by
  rcases mem_foldl_dictInsert h with hnil | hw
  · cases hnil
  · exact hw

/-- Unfolds `corrStep` at an explicit index pair. -/
lemma corrStep_mk (cols : List String) (corr : ℕ → ℕ → Option ℚ) (i j : ℕ) :
    corrStep cols corr (i, j) =
      (corr i j).bind (fun r =>
        if 3 / 10 < |r| then some (corrKey (cols.getD i "") (cols.getD j ""), round3 r)
        else none) := rfl

/-- The frame used against C7: four numeric columns whose names contain
underscores so that the pairs `("a", "b_c")` and `("a_b", "c")` share the
dict key `"a_b_c"`. -/
def dfU : List (String × Bool) := [("a", true), ("b_c", true), ("a_b", true), ("c", true)]

/-- The abstract correlation matrix used against C7: the pair `(0, 1)` (i.e.
`("a", "b_c")`) correlates at 0.5, the pair `(2, 3)` (i.e. `("a_b", "c")`) at
0.4, every other entry is NaN. -/
def corrX : ℕ → ℕ → Option ℚ := fun i j =>
  if i = 0 ∧ j = 1 then some (1 / 2)
  else if i = 2 ∧ j = 3 then some (2 / 5)
  else none

/-- C7 counterexample to the claim as stated: the dict is keyed by the
string `f"{col1}_{col2}"`, and with underscore-containing column names the
retained pairs `("a", "b_c")` (r = 0.5) and `("a_b", "c")` (r = 0.4) collide
on key `"a_b_c"`; the later write overwrites the earlier, so the map's only
entry under the key of the retained pair `("a", "b_c")` carries 0.4, not
that pair's rounded correlation 0.5 — the per-pair-value and unordered-pair
lookup clauses fail. -/
theorem c7_counterexample :
    corrKey "a" "b_c" = corrKey "a_b" "c" ∧
    corrX 0 1 = some (1 / 2) ∧ (3 / 10 : ℚ) < |(1 / 2 : ℚ)| ∧
    numericColumns dfU = ["a", "b_c", "a_b", "c"] ∧
    calculateCorrelations dfU corrX = [(corrKey "a" "b_c", round3 (2 / 5))] ∧
    round3 (2 / 5) = 2 / 5 ∧ round3 (1 / 2) = 1 / 2 ∧ (2 / 5 : ℚ) ≠ 1 / 2 := by
  have hck : corrKey "a" "b_c" = corrKey "a_b" "c" := by decide
  have hcols : numericColumns dfU = ["a", "b_c", "a_b", "c"] := by decide
  have habs1 : (3 / 10 : ℚ) < |(1 / 2 : ℚ)| := by
    rw [abs_of_pos (by norm_num : (0 : ℚ) < 1 / 2)]
    norm_num
  have habs2 : (3 / 10 : ℚ) < |(2 / 5 : ℚ)| := by
    rw [abs_of_pos (by norm_num : (0 : ℚ) < 2 / 5)]
    norm_num
  have hround2 : round3 (2 / 5 : ℚ) = 2 / 5 := by
    unfold round3 rhe
    have h1 : (1000 : ℚ) * (2 / 5) = 400 := by norm_num
    rw [h1]
    have hfl : ⌊(400 : ℚ)⌋ = 400 := by norm_num
    rw [hfl, if_pos (by push_cast; norm_num)]
    norm_num
  have hround1 : round3 (1 / 2 : ℚ) = 1 / 2 := by
    unfold round3 rhe
    have h1 : (1000 : ℚ) * (1 / 2) = 500 := by norm_num
    rw [h1]
    have hfl : ⌊(500 : ℚ)⌋ = 500 := by norm_num
    rw [hfl, if_pos (by push_cast; norm_num)]
    norm_num
  refine ⟨hck, rfl, habs1, hcols, ?_, hround2, hround1, by norm_num⟩
  have hc01 : corrX 0 1 = some (1 / 2) := rfl
  have hc23 : corrX 2 3 = some (2 / 5) := rfl
  have h01 : corrStep ["a", "b_c", "a_b", "c"] corrX (0, 1) =
      some (corrKey "a" "b_c", round3 (1 / 2)) := by
    rw [corrStep_mk, hc01, Option.some_bind, if_pos habs1]
    rfl
  have h23 : corrStep ["a", "b_c", "a_b", "c"] corrX (2, 3) =
      some (corrKey "a_b" "c", round3 (2 / 5)) := by
    rw [corrStep_mk, hc23, Option.some_bind, if_pos habs2]
    rfl
  have h02 : corrStep ["a", "b_c", "a_b", "c"] corrX (0, 2) = none := rfl
  have h03 : corrStep ["a", "b_c", "a_b", "c"] corrX (0, 3) = none := rfl
  have h12 : corrStep ["a", "b_c", "a_b", "c"] corrX (1, 2) = none := rfl
  have h13 : corrStep ["a", "b_c", "a_b", "c"] corrX (1, 3) = none := rfl
  have hpairs : pairIndices (["a", "b_c", "a_b", "c"] : List String).length =
      [(0, 1), (0, 2), (0, 3), (1, 2), (1, 3), (2, 3)] := by decide
  have hW : corrWrites ["a", "b_c", "a_b", "c"] corrX =
      [(corrKey "a" "b_c", round3 (1 / 2)), (corrKey "a_b" "c", round3 (2 / 5))] := by
    unfold corrWrites
    rw [if_neg (by decide), hpairs]
    simp only [List.filterMap_cons, List.filterMap_nil, h01, h02, h03, h12, h13, h23]
  have hstep1 : dictInsert [] (corrKey "a" "b_c") (round3 (1 / 2)) =
      [(corrKey "a" "b_c", round3 (1 / 2))] := by
    unfold dictInsert
    rw [if_neg (by simp)]
    rfl
  have hstep2 : dictInsert [(corrKey "a" "b_c", round3 (1 / 2))] (corrKey "a_b" "c")
      (round3 (2 / 5)) = [(corrKey "a" "b_c", round3 (2 / 5))] := by
    rw [← hck]
    unfold dictInsert
    rw [if_pos (by simp)]
    simp
  unfold calculateCorrelations
  rw [hcols, hW]
  simp only [List.foldl_cons, List.foldl_nil]
  rw [hstep1, hstep2, hck]

/-- C7 amended: provided distinct index pairs of numeric columns always join
to distinct dict keys (which holds in particular when the distinct numeric
column names contain no underscore), every binding of the correlations dict
is the key of a unique pair of two distinct numeric columns whose
correlation satisfies `|r| > 0.3`, valued at that pair's correlation rounded
to 3 decimals; the reversed ordering's key and any self-pair key never
occur, and the value bound to a key is unique — so the lookup of an
unordered pair is well defined.  Without that proviso the string keys
collide and the later pair's write overwrites the earlier one. -/
theorem c7_correlation_map_amended (df : List (String × Bool)) (corr : ℕ → ℕ → Option ℚ)
    (hnd : (numericColumns df).Nodup)
    (hkey : ∀ i j i2 j2, i < (numericColumns df).length → j < (numericColumns df).length →
      i2 < (numericColumns df).length → j2 < (numericColumns df).length →
      corrKey ((numericColumns df).getD i "") ((numericColumns df).getD j "") =
        corrKey ((numericColumns df).getD i2 "") ((numericColumns df).getD j2 "") →
      i = i2 ∧ j = j2) :
    (∀ k v, (k, v) ∈ calculateCorrelations df corr →
      (∃ i j r, i < j ∧ j < (numericColumns df).length ∧
        corr i j = some r ∧ 3 / 10 < |r| ∧
        k = corrKey ((numericColumns df).getD i "") ((numericColumns df).getD j "") ∧
        v = round3 r ∧
        (numericColumns df).getD i "" ∈ numericColumns df ∧
        (numericColumns df).getD j "" ∈ numericColumns df ∧
        (numericColumns df).getD i "" ≠ (numericColumns df).getD j "" ∧
        (∀ w, (corrKey ((numericColumns df).getD j "") ((numericColumns df).getD i ""), w) ∉
          calculateCorrelations df corr)) ∧
      (∀ w, (k, w) ∈ calculateCorrelations df corr → w = v)) ∧
    (∀ m, m < (numericColumns df).length →
      ∀ w, (corrKey ((numericColumns df).getD m "") ((numericColumns df).getD m ""), w) ∉
        calculateCorrelations df corr) := by
  constructor
  · intro k v hmem
    rcases mem_corrWrites.mp (mem_calculateCorrelations hmem) with
      ⟨-, i, j, r, hlt, hjn, hc, habs, hk, hv⟩
    have hin : i < (numericColumns df).length := lt_trans hlt hjn
    have hgi : (numericColumns df).getD i "" = (numericColumns df).get ⟨i, hin⟩ :=
      List.getD_eq_get _ _ hin
    have hgj : (numericColumns df).getD j "" = (numericColumns df).get ⟨j, hjn⟩ :=
      List.getD_eq_get _ _ hjn
    constructor
    · refine ⟨i, j, r, hlt, hjn, hc, habs, hk, hv, ?_, ?_, ?_, ?_⟩
      · rw [hgi]
        exact List.get_mem _ _ _
      · rw [hgj]
        exact List.get_mem _ _ _
      · rw [hgi, hgj]
        intro hcontra
        have hfe : (⟨i, hin⟩ : Fin (numericColumns df).length) = ⟨j, hjn⟩ :=
          (List.Nodup.get_inj_iff hnd).mp hcontra
        have : i = j := congrArg Fin.val hfe
        omega
      · intro w hw
        rcases mem_corrWrites.mp (mem_calculateCorrelations hw) with
          ⟨-, i2, j2, r2, hlt2, hjn2, -, -, hk2, -⟩
        have hin2 : i2 < (numericColumns df).length := lt_trans hlt2 hjn2
        rcases hkey j i i2 j2 hjn hin hin2 hjn2 hk2 with ⟨hji, hij⟩
        omega
    · intro w hw
      rcases mem_corrWrites.mp (mem_calculateCorrelations hw) with
        ⟨-, i2, j2, r2, hlt2, hjn2, hc2, -, hk2, hv2⟩
      have hin2 : i2 < (numericColumns df).length := lt_trans hlt2 hjn2
      rcases hkey i j i2 j2 hin hjn hin2 hjn2 (hk.symm.trans hk2) with ⟨hii, hjj⟩
      rw [← hii, ← hjj] at hc2
      have hr : r2 = r := Option.some.inj (hc2.symm.trans hc)
      rw [hv2, hr, hv]
  · intro m hm w hw
    rcases mem_corrWrites.mp (mem_calculateCorrelations hw) with
      ⟨-, i, j, r, hlt, hjn, -, -, hk, -⟩
    have hin : i < (numericColumns df).length := lt_trans hlt hjn
    rcases hkey m m i j hm hm hin hjn hk with ⟨hmi, hmj⟩
    omega

/-- The abstract correlation matrix used by the C7 witness. -/
def corrW : ℕ → ℕ → Option ℚ := fun i j => if i = j then some 1 else some (1 / 2)

/-- Witness for C7 amended at a frame with numeric columns `a`, `b` (no
underscores, so keys cannot collide) and non-numeric `s`: the single binding
is `("a_b", 0.5)` and its value is unique. -/
theorem c7_correlation_map_amended_witness :
    (numericColumns [("a", true), ("b", true), ("s", false)]).Nodup ∧
    (∀ i j i2 j2, i < (numericColumns [("a", true), ("b", true), ("s", false)]).length →
      j < (numericColumns [("a", true), ("b", true), ("s", false)]).length →
      i2 < (numericColumns [("a", true), ("b", true), ("s", false)]).length →
      j2 < (numericColumns [("a", true), ("b", true), ("s", false)]).length →
      corrKey ((numericColumns [("a", true), ("b", true), ("s", false)]).getD i "")
          ((numericColumns [("a", true), ("b", true), ("s", false)]).getD j "") =
        corrKey ((numericColumns [("a", true), ("b", true), ("s", false)]).getD i2 "")
          ((numericColumns [("a", true), ("b", true), ("s", false)]).getD j2 "") →
      i = i2 ∧ j = j2) ∧
    ((corrKey "a" "b", round3 (1 / 2)) ∈
      calculateCorrelations [("a", true), ("b", true), ("s", false)] corrW) ∧
    (∀ w, (corrKey "a" "b", w) ∈
        calculateCorrelations [("a", true), ("b", true), ("s", false)] corrW →
      w = round3 (1 / 2)) := by
  have hnd : (numericColumns [("a", true), ("b", true), ("s", false)]).Nodup := by decide
  have hl2 : (numericColumns [("a", true), ("b", true), ("s", false)]).length = 2 := by decide
  have hkey : ∀ i j i2 j2,
      i < (numericColumns [("a", true), ("b", true), ("s", false)]).length →
      j < (numericColumns [("a", true), ("b", true), ("s", false)]).length →
      i2 < (numericColumns [("a", true), ("b", true), ("s", false)]).length →
      j2 < (numericColumns [("a", true), ("b", true), ("s", false)]).length →
      corrKey ((numericColumns [("a", true), ("b", true), ("s", false)]).getD i "")
          ((numericColumns [("a", true), ("b", true), ("s", false)]).getD j "") =
        corrKey ((numericColumns [("a", true), ("b", true), ("s", false)]).getD i2 "")
          ((numericColumns [("a", true), ("b", true), ("s", false)]).getD j2 "") →
      i = i2 ∧ j = j2 := by
    intro i j i2 j2 hi hj hi2 hj2
    rw [hl2] at hi hj hi2 hj2
    interval_cases i <;> interval_cases j <;> interval_cases i2 <;> interval_cases j2 <;>
      decide
  have habs1 : (3 / 10 : ℚ) < |(1 / 2 : ℚ)| := by
    rw [abs_of_pos (by norm_num : (0 : ℚ) < 1 / 2)]
    norm_num
  have hcW : corrW 0 1 = some (1 / 2) := rfl
  have h01 : corrStep ["a", "b"] corrW (0, 1) = some (corrKey "a" "b", round3 (1 / 2)) := by
    rw [corrStep_mk, hcW, Option.some_bind, if_pos habs1]
    rfl
  have hcols : numericColumns [("a", true), ("b", true), ("s", false)] = ["a", "b"] := by
    decide
  have hpairs : pairIndices (["a", "b"] : List String).length = [(0, 1)] := by decide
  have hW : corrWrites ["a", "b"] corrW = [(corrKey "a" "b", round3 (1 / 2))] := by
    unfold corrWrites
    rw [if_neg (by decide), hpairs]
    simp only [List.filterMap_cons, List.filterMap_nil, h01]
  have hD : calculateCorrelations [("a", true), ("b", true), ("s", false)] corrW =
      [(corrKey "a" "b", round3 (1 / 2))] := by
    unfold calculateCorrelations
    rw [hcols, hW]
    simp only [List.foldl_cons, List.foldl_nil]
    unfold dictInsert
    rw [if_neg (by simp)]
    rfl
  have hmem : (corrKey "a" "b", round3 (1 / 2)) ∈
      calculateCorrelations [("a", true), ("b", true), ("s", false)] corrW := by
    rw [hD]
    exact List.mem_singleton.mpr rfl
  refine ⟨hnd, hkey, hmem, ?_⟩
  exact ((c7_correlation_map_amended [("a", true), ("b", true), ("s", false)] corrW hnd
    hkey).1 (corrKey "a" "b") (round3 (1 / 2)) hmem).2

/-! ## Embedding of `DataProcessor.infer_column_type`
(`backend/app/core/data_processor.py`).

A cell is embedded as its string form (`astype(str)`) together with two
abstract pandas parse outcomes: whether `pd.to_numeric` accepts it (`numOk`)
and whether `pd.to_datetime` accepts it (`dtOk`).  A column carries its
pandas dtype flags (`series.dtype == bool`, `is_numeric_dtype`,
`is_datetime64_any_dtype`) and its cells, `none` being a null removed by
`dropna()`.  The theorems quantify over all parse outcomes, hence hold for
the ones pandas produces. -/

structure CellV where
  txt : String
  numOk : Bool
  dtOk : Bool
deriving DecidableEq

structure ColV where
  dtypeIsBool : Bool
  dtypeIsNumeric : Bool
  dtypeIsDatetime : Bool
  cells : List (Option CellV)

/-- The fixed `boolean_values` token set. -/
def boolTokens : List String :=
  ["True", "False", "true", "false", "TRUE", "FALSE", "yes", "no", "YES", "NO"]

/-- The date-like separator characters `['-', '/', ':', ' ']`. -/
def dateSeparators : List Char := ['-', '/', ':', ' ']

/-- `any(char in sample_str for char in ['-', '/', ':', ' '])`. -/
def hasDateSeparator (s : String) : Bool :=
  s.toList.any (fun c => dateSeparators.contains c)

/-- `series.dropna()`. -/
def nonNullCells (c : ColV) : List CellV := c.cells.filterMap id

/-- The sampled datetime heuristic of the source: the first
`min(10, len(non_null_series))` non-null values all parse as datetime, and
the first sampled value's string form contains a date-like separator *and is
longer than 6 characters*. -/
def dtSampleCheck (c : ColV) : Bool :=
  ((nonNullCells c).take 10).all (fun v => v.dtOk) &&
    (match ((nonNullCells c).take 10).head? with
     | some v => hasDateSeparator v.txt && decide (6 < v.txt.length)
     | none => false)

/-- Embeds `infer_column_type` line by line: empty after `dropna` → unknown;
boolean dtype → boolean; all values in the token set → boolean; numeric
dtype → numerical; all values parse numeric → numerical; datetime dtype →
datetime; sampled datetime heuristic (under the source's redundant
non-numeric-dtype guard) → datetime; else categorical. -/
def inferColumnType (c : ColV) : String :=
  if (nonNullCells c).length = 0 then "unknown"
  else if c.dtypeIsBool then "boolean"
  else if (nonNullCells c).all (fun v => boolTokens.contains v.txt) then "boolean"
  else if c.dtypeIsNumeric then "numerical"
  else if (nonNullCells c).all (fun v => v.numOk) then "numerical"
  else if c.dtypeIsDatetime then "datetime"
  else if (!c.dtypeIsNumeric) && dtSampleCheck c then "datetime"
  else "categorical"

/-- The boolean check exactly as the claim words it: native boolean dtype or
all values drawn from the fixed boolean-token set. -/
def boolCheck (c : ColV) : Bool :=
  c.dtypeIsBool || (nonNullCells c).all (fun v => boolTokens.contains v.txt)

/-- The numerical check exactly as the claim words it: native numeric dtype
or all non-null values parseable as numeric. -/
def numericCheck (c : ColV) : Bool :=
  c.dtypeIsNumeric || (nonNullCells c).all (fun v => v.numOk)

/-- The datetime check exactly as the claim words it: native datetime dtype,
or the small sample parses as datetime and contains a date-like separator
character — the claim does not mention the source's additional
string-length filter. -/
def datetimeCheckStated (c : ColV) : Bool :=
  c.dtypeIsDatetime ||
    (((nonNullCells c).take 10).all (fun v => v.dtOk) &&
      (match ((nonNullCells c).take 10).head? with
       | some v => hasDateSeparator v.txt
       | none => false))

/-- The datetime check amended with the source's length filter: the first
sampled value's string form must also be longer than 6 characters. -/
def datetimeCheckAmended (c : ColV) : Bool := c.dtypeIsDatetime || dtSampleCheck c

/-- First-match-order type inference as the claim states it (datetime check
without the length filter). -/
def inferColumnTypeStated (c : ColV) : String :=
  if (nonNullCells c).length = 0 then "unknown"
  else if boolCheck c then "boolean"
  else if numericCheck c then "numerical"
  else if datetimeCheckStated c then "datetime"
  else "categorical"

/-- First-match-order type inference with the amended datetime check. -/
def inferColumnTypeAmended (c : ColV) : String :=
  if (nonNullCells c).length = 0 then "unknown"
  else if boolCheck c then "boolean"
  else if numericCheck c then "numerical"
  else if datetimeCheckAmended c then "datetime"
  else "categorical"

/-- C4 counterexample to the claim as stated: a one-cell string column whose
value `"1/2/90"` parses as a date and contains a separator, but has string
length 6; the code classifies it `categorical` (the length filter fails)
while the claimed check order without the length filter yields `datetime`. -/
theorem c4_counterexample :
    inferColumnType ⟨false, false, false, [some ⟨"1/2/90", false, true⟩]⟩ = "categorical" ∧
    inferColumnTypeStated ⟨false, false, false, [some ⟨"1/2/90", false, true⟩]⟩ = "datetime" ∧
    inferColumnType ⟨false, false, false, [some ⟨"1/2/90", false, true⟩]⟩ ≠
      inferColumnTypeStated ⟨false, false, false, [some ⟨"1/2/90", false, true⟩]⟩ := by
  refine ⟨?_, ?_, ?_⟩ <;> decide

/-- C4 amended: `infer_column_type` is exactly the first-match cascade
boolean → numerical → datetime → categorical over the stated checks, with
the datetime sample heuristic additionally requiring the first sampled
string to be longer than 6 characters, and a column with zero non-null
values yields `unknown`. -/
theorem c4_infer_type_first_match (c : ColV) :
    inferColumnType c = inferColumnTypeAmended c := by
  by_cases h0 : (nonNullCells c).length = 0 <;>
  rcases hb1 : c.dtypeIsBool with _ | _ <;>
  rcases hb2 : (nonNullCells c).all (fun v => boolTokens.contains v.txt) with _ | _ <;>
  rcases hn1 : c.dtypeIsNumeric with _ | _ <;>
  rcases hn2 : (nonNullCells c).all (fun v => v.numOk) with _ | _ <;>
  rcases hd1 : c.dtypeIsDatetime with _ | _ <;>
  rcases hd2 : dtSampleCheck c with _ | _ <;>
  simp [inferColumnType, inferColumnTypeAmended, boolCheck, numericCheck,
    datetimeCheckAmended, h0, hb1, hb2, hn1, hn2, hd1, hd2]

end OthorAI

